import Mathlib

/-!
# Verification of the PostDevAi hybrid tiered memory engine

A shallow embedding of the memory engine of the `cli-panda/PostDevAi`
repository (`src/core/memory/`): the Memory Budgeter, the Vector, Code,
History and Metadata stores, the RAM-Lake coordinator, the Persistent
Store and the Hybrid Memory facade, together with proofs about the
specified behaviour of those components.

Modelling conventions:
* `Uuid` values are modelled as natural numbers; `Uuid::new_v4()` becomes an
  explicit fresh-identifier argument.
* `chrono` timestamps are modelled as natural numbers supplied by the caller
  (an explicit clock argument wherever the source calls `now()`).
* Rust `HashMap`/`HashSet` are modelled as association lists with unique keys
  (insertion replaces) / duplicate-free lists.
* `f32` vector components are modelled as rationals; the numeric value of the
  cosine similarity never matters to the statements proved here, so the
  similarity function is a parameter of the search operations.
* File-system contents (the per-entry files each store writes) are modelled
  as an association list from file name to contents carried in the store
  state; file I/O itself is assumed not to fail.
* Operations that mutate state and can also fail return
  `State × Except String α`, mirroring Rust `&mut self` methods returning
  `Result`: the state component is the state after the call even when the
  call reports an error (mutations before the failing step persist).
-/

namespace PostDevAi

/-! ## Association-list model of `HashMap` -/

/-- Lookup in an association list (model of `HashMap::get`). -/
def alookup {α β : Type} [DecidableEq α] : List (α × β) → α → Option β
  | [], _ => none
  | (k, v) :: rest, k' => if k = k' then some v else alookup rest k'

/-- Insert into an association list, replacing an existing binding
(model of `HashMap::insert`). -/
def ainsert {α β : Type} [DecidableEq α] (k : α) (v : β) :
    List (α × β) → List (α × β)
  | [] => [(k, v)]
  | (k', v') :: rest =>
      if k' = k then (k, v) :: rest else (k', v') :: ainsert k v rest

/-- Remove a key from an association list (model of `HashMap::remove`). -/
def aerase {α β : Type} [DecidableEq α] (k : α) :
    List (α × β) → List (α × β)
  | [] => []
  | (k', v') :: rest => if k' = k then rest else (k', v') :: aerase k rest

/-! ## Memory Budgeter (`stores/memory_manager.rs`) -/

/-- One entry of the allocation history ring (`MemoryAllocation`). -/
structure MemoryAllocation where
  size : Nat
  source : String
  timestamp : Nat
deriving Repr, DecidableEq

/-- Model of `MemoryManager`: byte budget, current usage, allocation history. -/
structure MemoryManager where
  max_size : Nat
  current_size : Nat
  allocations : List MemoryAllocation
deriving Repr, DecidableEq

/-- Model of `MemoryAllocationError`. -/
inductive MemoryAllocationError where
  | outOfMemory
  | invalidSize
deriving Repr, DecidableEq

/-- Display messages of `MemoryAllocationError` (the `thiserror` strings). -/
def MemoryAllocationError.message : MemoryAllocationError → String
  | .outOfMemory => "Not enough memory available"
  | .invalidSize => "Invalid allocation size"

/-- Model of `MemoryManager::new`. -/
def MemoryManager.new (max_size : Nat) : MemoryManager :=
  { max_size := max_size, current_size := 0, allocations := [] }

/-- Append to the history and cap it at 1000 entries
(`push_back` followed by the `len() > 1000` check with `pop_front`). -/
def pushAllocation (l : List MemoryAllocation) (a : MemoryAllocation) :
    List MemoryAllocation :=
  let l' := l ++ [a]
  if 1000 < l'.length then l'.tail else l'

/-- Model of `MemoryManager::allocate`. -/
def MemoryManager.allocate (mm : MemoryManager) (size : Nat) (now : Nat) :
    MemoryManager × Except MemoryAllocationError Unit :=
  if size = 0 then (mm, .error .invalidSize)
  else if mm.max_size < mm.current_size + size then (mm, .error .outOfMemory)
  else
    ({ mm with
        allocations := pushAllocation mm.allocations
          { size := size, source := "unknown", timestamp := now },
        current_size := mm.current_size + size },
     .ok ())

/-- Model of `MemoryManager::allocate_with_source`. -/
def MemoryManager.allocateWithSource (mm : MemoryManager) (size : Nat)
    (source : String) (now : Nat) :
    MemoryManager × Except MemoryAllocationError Unit :=
  if size = 0 then (mm, .error .invalidSize)
  else if mm.max_size < mm.current_size + size then (mm, .error .outOfMemory)
  else
    ({ mm with
        allocations := pushAllocation mm.allocations
          { size := size, source := source, timestamp := now },
        current_size := mm.current_size + size },
     .ok ())

/-- Model of `MemoryManager::free`. -/
def MemoryManager.free (mm : MemoryManager) (size : Nat) (now : Nat) :
    MemoryManager × Except MemoryAllocationError Unit :=
  if size = 0 then (mm, .error .invalidSize)
  else if mm.current_size < size then (mm, .error .invalidSize)
  else
    ({ mm with
        current_size := mm.current_size - size,
        allocations := pushAllocation mm.allocations
          { size := size, source := "free", timestamp := now } },
     .ok ())

/-- Model of `MemoryManager::reset`. -/
def MemoryManager.reset (mm : MemoryManager) : MemoryManager :=
  { mm with current_size := 0, allocations := [] }

/-- Model of `MemoryManager::increase_max_size`. -/
def MemoryManager.increaseMaxSize (mm : MemoryManager) (additional : Nat) :
    MemoryManager :=
  { mm with max_size := mm.max_size + additional }

/-- Model of `MemoryManager::decrease_max_size`. -/
def MemoryManager.decreaseMaxSize (mm : MemoryManager) (reduction : Nat) :
    MemoryManager × Except MemoryAllocationError Unit :=
  let new_max_size := if mm.max_size < reduction then 0 else mm.max_size - reduction
  if new_max_size < mm.current_size then (mm, .error .outOfMemory)
  else ({ mm with max_size := new_max_size }, .ok ())

/-- The operations of the budgeter a caller can issue. -/
inductive MBOp where
  | allocate (size now : Nat)
  | allocateWithSource (size : Nat) (source : String) (now : Nat)
  | free (size now : Nat)
  | reset
  | increaseMaxSize (d : Nat)
  | decreaseMaxSize (d : Nat)

/-- State reached by one budgeter operation (errors leave the state as the
operation left it, which for the budgeter is unchanged). -/
def MBOp.apply (mm : MemoryManager) : MBOp → MemoryManager
  | .allocate size now => (mm.allocate size now).1
  | .allocateWithSource size source now => (mm.allocateWithSource size source now).1
  | .free size now => (mm.free size now).1
  | .reset => mm.reset
  | .increaseMaxSize d => mm.increaseMaxSize d
  | .decreaseMaxSize d => (mm.decreaseMaxSize d).1

/-- Run a sequence of budgeter operations. -/
def runMBOps (mm : MemoryManager) (ops : List MBOp) : MemoryManager :=
  ops.foldl MBOp.apply mm

/-! ## Metadata Store (`stores/metadata_store.rs`)

Only the relation graph is modelled; the store's `current_size` tracks the
size of the persisted JSON file on disk, which no claim refers to. -/

/-- Model of `RelationGraph`: forward/backward indices are `source -> relation ->
set of targets` maps, modelled as association lists; target sets are
duplicate-free lists. -/
structure RelationGraph where
  count : Nat
  version : Nat
  forward : List (Nat × List (String × List Nat))
  backward : List (Nat × List (String × List Nat))
  all_relations : List (Nat × String × Nat)
deriving Repr, DecidableEq

/-- The empty graph created by `MetadataStore::new`. -/
def RelationGraph.empty : RelationGraph :=
  { count := 0, version := 1, forward := [], backward := [], all_relations := [] }

/-- Model of `HashSet::insert`: add if absent (sets are duplicate-free lists). -/
def sinsert (x : Nat) (s : List Nat) : List Nat :=
  if x ∈ s then s else s ++ [x]

/-- The `already_exists` check of `MetadataStore::store_relation`. -/
def RelationGraph.tripleExists (g : RelationGraph) (source_id : Nat)
    (relation : String) (target_id : Nat) : Bool :=
  match (alookup g.forward source_id).bind (fun r => alookup r relation) with
  | some targets => decide (target_id ∈ targets)
  | none => false

/-- Model of `entry(k).or_insert_with(HashMap::new).entry(rel).or_insert_with(HashSet::new).insert(v)`. -/
def addToRelationIndex (idx : List (Nat × List (String × List Nat)))
    (k : Nat) (relation : String) (v : Nat) :
    List (Nat × List (String × List Nat)) :=
  let inner := (alookup idx k).getD []
  let targets := (alookup inner relation).getD []
  ainsert k (ainsert relation (sinsert v targets) inner) idx

/-- Model of `MetadataStore::store_relation` (persistence of the JSON document is
assumed not to fail). -/
def RelationGraph.storeRelation (g : RelationGraph) (source_id : Nat)
    (relation : String) (target_id : Nat) :
    RelationGraph × Except String Unit :=
  if g.tripleExists source_id relation target_id then (g, .ok ())
  else
    ({ count := g.count + 1,
       version := g.version + 1,
       forward := addToRelationIndex g.forward source_id relation target_id,
       backward := addToRelationIndex g.backward target_id relation source_id,
       all_relations := g.all_relations ++ [(source_id, relation, target_id)] },
     .ok ())

/-! ## Vector Store (`stores/vector_store.rs`)

The FAISS index is compiled out in the source (`faiss_index` is commented
out and every `#[cfg(feature = "faiss")]` block is inactive), so search
always takes the brute-force path.  The numeric value of the `f32` cosine
similarity is irrelevant to every statement proved here, so the similarity
function is passed as a parameter `cosSim`; vector components are
rationals. -/

/-- Model of `EmbeddingMetadata`. -/
structure EmbeddingMetadata where
  id : Nat
  source_id : Nat
  embedding_type : String
  dimension : Nat
  file_path : String
  size : Nat
  created_at : Nat
deriving Repr, DecidableEq

/-- Model of `VectorIndex`. -/
structure VectorIndex where
  dimension : Nat
  count : Nat
  version : Nat
  ids : List Nat
deriving Repr, DecidableEq

/-- Model of `VectorStore`: budget, usage, index, metadata map, and the on-disk
`<id>.vec` files (dimension header plus values). -/
structure VectorStore where
  max_size : Nat
  current_size : Nat
  index : VectorIndex
  metadata : List (Nat × EmbeddingMetadata)
  files : List (String × (Nat × List ℚ))
deriving Repr, DecidableEq

/-- A fresh store as built by `VectorStore::new` on an empty directory:
dimension 0 until the first insert. -/
def VectorStore.new (max_size : Nat) : VectorStore :=
  { max_size := max_size, current_size := 0,
    index := { dimension := 0, count := 0, version := 1, ids := [] },
    metadata := [], files := [] }

/-- Model of `format!("{}.vec", id)`. -/
def vecFileName (id : Nat) : String := toString id ++ ".vec"

/-- Model of `VectorStore::store_embedding`.  `size_of::<f32>() = 4`.  Note the order
of the source: duplicate check, space check, file write, then index update —
so a dimension mismatch error leaves the `.vec` file written. -/
def VectorStore.storeEmbedding (st : VectorStore) (id : Nat)
    (embedding : List ℚ) (now : Nat) : VectorStore × Except String Unit :=
  if (alookup st.metadata id).isSome then
    (st, .error ("Embedding with ID " ++ toString id ++ " already exists"))
  else
    let embedding_size := embedding.length * 4
    if st.max_size < st.current_size + embedding_size then
      (st, .error "Not enough space in vector store")
    else
      let file_name := vecFileName id
      let st1 := { st with
        files := ainsert file_name (embedding.length, embedding) st.files }
      let meta : EmbeddingMetadata :=
        { id := id, source_id := id, embedding_type := "unknown",
          dimension := embedding.length, file_path := file_name,
          size := embedding_size, created_at := now }
      if st1.index.count = 0 then
        ({ st1 with
            index := { dimension := embedding.length,
                       count := st1.index.count + 1,
                       version := st1.index.version + 1,
                       ids := st1.index.ids ++ [id] },
            metadata := ainsert id meta st1.metadata,
            current_size := st1.current_size + embedding_size },
         .ok ())
      else if st1.index.dimension ≠ embedding.length then
        (st1, .error ("Embedding dimension mismatch. Expected " ++
          toString st1.index.dimension ++ ", got " ++ toString embedding.length))
      else
        ({ st1 with
            index := { st1.index with
                       count := st1.index.count + 1,
                       version := st1.index.version + 1,
                       ids := st1.index.ids ++ [id] },
            metadata := ainsert id meta st1.metadata,
            current_size := st1.current_size + embedding_size },
         .ok ())

/-- Model of `VectorStore::load_embedding`: metadata lookup, file open, header check,
then exactly `dimension` values are read. -/
def VectorStore.loadEmbedding (st : VectorStore) (id : Nat) :
    Except String (List ℚ) :=
  match alookup st.metadata id with
  | none => .error ("Embedding with ID " ++ toString id ++ " not found")
  | some meta =>
      match alookup st.files meta.file_path with
      | none => .error "Failed to open embedding file"
      | some (dim, data) =>
          if dim ≠ meta.dimension then
            .error ("Embedding dimension mismatch. Expected " ++
              toString meta.dimension ++ ", got " ++ toString dim)
          else if data.length < dim then
            .error "Failed to read embedding data"
          else .ok (data.take dim)

/-- One step of the stable descending sort on similarity
(`sort_by(|a, b| b.1.partial_cmp(&a.1).unwrap_or(Equal))`). -/
def insertDescBySim (x : Nat × ℚ) : List (Nat × ℚ) → List (Nat × ℚ)
  | [] => [x]
  | y :: rest => if y.2 ≤ x.2 then x :: y :: rest else y :: insertDescBySim x rest

/-- Stable sort, descending by similarity. -/
def sortDescBySim : List (Nat × ℚ) → List (Nat × ℚ)
  | [] => []
  | x :: rest => insertDescBySim x (sortDescBySim rest)

/-- The similarity-collection loop of `brute_force_search`: a failing
`load_embedding` aborts the whole search. -/
def collectSimilarities (cosSim : List ℚ → List ℚ → ℚ) (st : VectorStore)
    (embedding : List ℚ) : List Nat → Except String (List (Nat × ℚ))
  | [] => .ok []
  | id :: rest => do
      let v ← st.loadEmbedding id
      let tail ← collectSimilarities cosSim st embedding rest
      .ok ((id, cosSim embedding v) :: tail)

/-- Model of `VectorStore::brute_force_search`: collect, sort descending, truncate. -/
def VectorStore.bruteForceSearch (cosSim : List ℚ → List ℚ → ℚ)
    (st : VectorStore) (embedding : List ℚ) (limit : Nat) :
    Except String (List (Nat × ℚ)) := do
  let results ← collectSimilarities cosSim st embedding st.index.ids
  .ok ((sortDescBySim results).take limit)

/-- Model of `VectorStore::search_similar`: dimension check first, then the
empty-store check, then brute force. -/
def VectorStore.searchSimilar (cosSim : List ℚ → List ℚ → ℚ)
    (st : VectorStore) (embedding : List ℚ) (limit : Nat) :
    Except String (List (Nat × ℚ)) :=
  if st.index.dimension ≠ embedding.length then
    .error ("Embedding dimension mismatch. Expected " ++
      toString st.index.dimension ++ ", got " ++ toString embedding.length)
  else if st.index.count = 0 then .ok []
  else st.bruteForceSearch cosSim embedding limit

/-- Model of `VectorStore::delete_embedding`: removes the file, the id, the metadata;
releases the size; leaves `dimension` untouched. -/
def VectorStore.deleteEmbedding (st : VectorStore) (id : Nat) :
    VectorStore × Except String Unit :=
  match alookup st.metadata id with
  | none => (st, .error ("Embedding with ID " ++ toString id ++ " not found"))
  | some meta =>
      ({ st with
          files := aerase meta.file_path st.files,
          index := { st.index with
                     ids := st.index.ids.filter (fun i => i ≠ id),
                     count := st.index.count - 1,
                     version := st.index.version + 1 },
          metadata := aerase id st.metadata,
          current_size := st.current_size - meta.size },
       .ok ())

/-! ## Code Store (`stores/code_store.rs`)

The SHA-256 content hash is kept abstract as a `digest` parameter: no claim
depends on the hash value. -/

/-- Model of `CodeMetadata`. -/
structure CodeMetadata where
  id : Nat
  path : String
  language : String
  size : Nat
  file_path : String
  created_at : Nat
  modified_at : Nat
  hash : String
deriving Repr, DecidableEq

/-- Model of `CodeIndex`. -/
structure CodeIndex where
  count : Nat
  version : Nat
  ids : List Nat
  path_map : List (String × Nat)
deriving Repr, DecidableEq

/-- Model of `CodeStore` with its on-disk `<id>.code` files. -/
structure CodeStore where
  max_size : Nat
  current_size : Nat
  index : CodeIndex
  metadata : List (Nat × CodeMetadata)
  files : List (String × String)
deriving Repr, DecidableEq

/-- A fresh store as built by `CodeStore::new` on an empty directory. -/
def CodeStore.new (max_size : Nat) : CodeStore :=
  { max_size := max_size, current_size := 0,
    index := { count := 0, version := 1, ids := [], path_map := [] },
    metadata := [], files := [] }

/-- Model of `format!("{}.code", id)`. -/
def codeFileName (id : Nat) : String := toString id ++ ".code"

/-- Model of `CodeStore::delete_file`. -/
def CodeStore.deleteFile (st : CodeStore) (id : Nat) :
    CodeStore × Except String Unit :=
  match alookup st.metadata id with
  | none => (st, .error ("Code file with ID " ++ toString id ++ " not found"))
  | some meta =>
      ({ st with
          files := aerase meta.file_path st.files,
          current_size := st.current_size - meta.size,
          metadata := aerase id st.metadata,
          index := { count := st.index.count - 1,
                     version := st.index.version + 1,
                     ids := st.index.ids.filter (fun i => i ≠ id),
                     path_map := aerase meta.path st.index.path_map } },
       .ok ())

/-- The straight-line tail of `CodeStore::store_file` once the budget check
has passed and any previous holder of the path has been deleted: write the
file, record metadata, update index and size. -/
def CodeStore.storeFileUnchecked (st : CodeStore) (id : Nat)
    (path content language : String) (now : Nat) (digest : String → String) :
    CodeStore :=
  { st with
    files := ainsert (codeFileName id) content st.files,
    index := { count := st.index.count + 1,
               version := st.index.version + 1,
               ids := st.index.ids ++ [id],
               path_map := ainsert path id st.index.path_map },
    metadata := ainsert id
      { id := id, path := path, language := language, size := content.length,
        file_path := codeFileName id, created_at := now, modified_at := now,
        hash := digest content } st.metadata,
    current_size := st.current_size + content.length }

/-- Model of `CodeStore::store_file`: budget check against the size *before* any
replacement, then delete the existing holder of the path (if any), then
store. -/
def CodeStore.storeFile (st : CodeStore) (id : Nat)
    (path content language : String) (now : Nat) (digest : String → String) :
    CodeStore × Except String Unit :=
  if st.max_size < st.current_size + content.length then
    (st, .error "Not enough space in code store")
  else
    match alookup st.index.path_map path with
    | some existing_id =>
        match st.deleteFile existing_id with
        | (st1, .error e) => (st1, .error e)
        | (st1, .ok ()) =>
            (st1.storeFileUnchecked id path content language now digest, .ok ())
    | none => (st.storeFileUnchecked id path content language now digest, .ok ())

/-- Model of `CodeStore::get_file`. -/
def CodeStore.getFile (st : CodeStore) (id : Nat) :
    Except String (String × String × String) :=
  match alookup st.metadata id with
  | none => .error ("Code file with ID " ++ toString id ++ " not found")
  | some meta =>
      match alookup st.files meta.file_path with
      | none => .error "Failed to open code file"
      | some content => .ok (meta.path, content, meta.language)

/-! ## History Store (`stores/history_store.rs`) -/

/-- Model of `EventMetadata`. -/
structure EventMetadata where
  id : Nat
  event_type : String
  size : Nat
  file_path : String
  timestamp : Nat
  source : Option String
  severity : Option String
deriving Repr, DecidableEq

/-- Model of `EventIndex`. -/
structure EventIndex where
  count : Nat
  version : Nat
  ids : List Nat
  type_map : List (String × List Nat)
deriving Repr, DecidableEq

/-- Model of `HistoryStore` with its on-disk `<id>.event` files. -/
structure HistoryStore where
  max_size : Nat
  current_size : Nat
  index : EventIndex
  metadata : List (Nat × EventMetadata)
  files : List (String × String)
deriving Repr, DecidableEq

/-- A fresh store as built by `HistoryStore::new` on an empty directory. -/
def HistoryStore.new (max_size : Nat) : HistoryStore :=
  { max_size := max_size, current_size := 0,
    index := { count := 0, version := 1, ids := [], type_map := [] },
    metadata := [], files := [] }

/-- Model of `format!("{}.event", id)`. -/
def eventFileName (id : Nat) : String := toString id ++ ".event"

/-- Model of `HistoryStore::delete_event`. -/
def HistoryStore.deleteEvent (st : HistoryStore) (id : Nat) :
    HistoryStore × Except String Unit :=
  match alookup st.metadata id with
  | none => (st, .error ("Event with ID " ++ toString id ++ " not found"))
  | some meta =>
      let type_map' :=
        match alookup st.index.type_map meta.event_type with
        | none => st.index.type_map
        | some events =>
            let events' := events.filter (fun i => i ≠ id)
            if events' = [] then aerase meta.event_type st.index.type_map
            else ainsert meta.event_type events' st.index.type_map
      ({ st with
          files := aerase meta.file_path st.files,
          current_size := st.current_size - meta.size,
          metadata := aerase id st.metadata,
          index := { count := st.index.count - 1,
                     version := st.index.version + 1,
                     ids := st.index.ids.filter (fun i => i ≠ id),
                     type_map := type_map' } },
       .ok ())

/-- One step of the stable ascending sort on timestamp
(`sort_by(|a, b| a.1.cmp(&b.1))`). -/
def insertAscByTs (x : Nat × Nat × Nat) :
    List (Nat × Nat × Nat) → List (Nat × Nat × Nat)
  | [] => [x]
  | y :: rest => if x.2.1 ≤ y.2.1 then x :: y :: rest else y :: insertAscByTs x rest

/-- Stable sort of `(id, timestamp, size)` triples, ascending by timestamp. -/
def sortAscByTs : List (Nat × Nat × Nat) → List (Nat × Nat × Nat)
  | [] => []
  | x :: rest => insertAscByTs x (sortAscByTs rest)

/-- The deletion loop of `remove_oldest_events`: stop once enough space was
freed, otherwise delete the next-oldest event. -/
def removeOldestLoop (required : Nat) :
    HistoryStore → Nat → List (Nat × Nat × Nat) →
    HistoryStore × Except String Unit
  | st, _, [] => (st, .ok ())
  | st, freed, (id, _, size) :: rest =>
      if required ≤ freed then (st, .ok ())
      else
        match st.deleteEvent id with
        | (st', .error e) => (st', .error e)
        | (st', .ok ()) => removeOldestLoop required st' (freed + size) rest

/-- Model of `HistoryStore::remove_oldest_events`: snapshot `(id, timestamp, size)` of
every indexed event that has metadata, sort ascending by timestamp, delete
until the required bytes are freed or the log is exhausted. -/
def HistoryStore.removeOldestEvents (st : HistoryStore) (required : Nat) :
    HistoryStore × Except String Unit :=
  let snapshot := st.index.ids.filterMap
    (fun id => (alookup st.metadata id).map (fun m => (id, m.timestamp, m.size)))
  removeOldestLoop required st 0 (sortAscByTs snapshot)

/-- The straight-line tail of `HistoryStore::store_event` once space is
available: write the file, record metadata, update index and size. -/
def HistoryStore.storeEventUnchecked (st : HistoryStore) (id : Nat)
    (event_type content : String) (now : Nat) : HistoryStore :=
  { st with
    files := ainsert (eventFileName id) content st.files,
    index := { count := st.index.count + 1,
               version := st.index.version + 1,
               ids := st.index.ids ++ [id],
               type_map := ainsert event_type
                 (((alookup st.index.type_map event_type).getD []) ++ [id])
                 st.index.type_map },
    metadata := ainsert id
      { id := id, event_type := event_type, size := content.length,
        file_path := eventFileName id, timestamp := now,
        source := none, severity := none } st.metadata,
    current_size := st.current_size + content.length }

/-- Model of `HistoryStore::store_event`: if the budget would be exceeded, evict
oldest events first and re-check; evictions persist even when the store
still fails. -/
def HistoryStore.storeEvent (st : HistoryStore) (id : Nat)
    (event_type content : String) (now : Nat) :
    HistoryStore × Except String Unit :=
  if st.max_size < st.current_size + content.length then
    match st.removeOldestEvents content.length with
    | (st1, .error e) => (st1, .error e)
    | (st1, .ok ()) =>
        if st1.max_size < st1.current_size + content.length then
          (st1, .error "Not enough space in history store")
        else (st1.storeEventUnchecked id event_type content now, .ok ())
  else (st.storeEventUnchecked id event_type content now, .ok ())

/-- Model of `HistoryStore::get_event` (the UTC-to-local conversion on read is the
identity on the modelled timestamp). -/
def HistoryStore.getEvent (st : HistoryStore) (id : Nat) :
    Except String (String × String × Nat) :=
  match alookup st.metadata id with
  | none => .error ("Event with ID " ++ toString id ++ " not found")
  | some meta =>
      match alookup st.files meta.file_path with
      | none => .error "Failed to open event file"
      | some content => .ok (meta.event_type, content, meta.timestamp)

/-- Model of `HistoryStore::get_recent_events`: the last `limit` ids in insertion
order, newest first, with their metadata. -/
def HistoryStore.getRecentEvents (st : HistoryStore) (limit : Nat) :
    List (Nat × EventMetadata) :=
  (st.index.ids.reverse.take limit).filterMap
    (fun id => (alookup st.metadata id).map (fun m => (id, m)))

/-! ## Persistent Store (`persistent.rs`)

The RocksDB engine is modelled as a key-sorted association list of raw
values; a raw value is either a well-formed `bincode` encoding of an entry
or corrupt bytes that fail to decode.  A `put` that fails at the engine
level is injected through the `putOk` argument. -/

/-- Model of `str::starts_with`, computed on the character list. -/
def strStartsWith (s pre : String) : Bool :=
  decide (s.data.take pre.data.length = pre.data)

/-- Dropping the first `n` characters of a string (`&key_str[6..]` — the
modelled keys are ASCII, so bytes and characters coincide). -/
def strDrop (s : String) (n : Nat) : String := ⟨s.data.drop n⟩

/-- The numeric-identifier parse standing in for `Uuid::parse_str`: modelled
ids print in decimal, so the parse accepts exactly nonempty digit strings
(an empty or non-digit string fails, like a malformed UUID). -/
def strToNat (s : String) : Option Nat :=
  if s.data = [] then none else go s.data 0
where
  go : List Char → Nat → Option Nat
    | [], acc => some acc
    | c :: cs, acc =>
        if 48 ≤ c.toNat ∧ c.toNat ≤ 57 then go cs (acc * 10 + (c.toNat - 48))
        else none

/-- Model of `EntryType`, the tagged union persisted by the engine. -/
inductive EntryType where
  | code (path content language : String) (timestamp : Nat)
  | event (event_type content : String) (timestamp : Nat)
  | embedding (vector : List ℚ) (meta : String) (timestamp : Nat)
  | relationMeta (source_id : Nat) (relation : String) (target_id : Nat)
      (timestamp : Nat)
  | context (session_id : Nat) (context : List String) (timestamp : Nat)
deriving Repr, DecidableEq

/-- A value stored in the engine: either the encoding of an entry or bytes
that `bincode::deserialize` rejects. -/
inductive RawValue where
  | enc (e : EntryType)
  | corrupt (tag : Nat)
deriving Repr, DecidableEq

/-- Model of `bincode::deserialize`: inverts `enc`, fails on corrupt bytes. -/
def decodeEntry : RawValue → Option EntryType
  | .enc e => some e
  | .corrupt _ => none

/-- RocksDB `put`: overwrite in place, otherwise insert in key order (the
engine iterates keys in sorted order). -/
def dbPut (k : String) (v : RawValue) :
    List (String × RawValue) → List (String × RawValue)
  | [] => [(k, v)]
  | (k', v') :: rest =>
      if k = k' then (k, v) :: rest
      else if k < k' then (k, v) :: (k', v') :: rest
      else (k', v') :: dbPut k v rest

/-- Model of `PersistentStore`: the engine contents plus the `entry_count` metric
(the only metric any claim refers to). -/
structure PersistentStore where
  db : List (String × RawValue)
  entry_count : Nat
deriving Repr, DecidableEq

/-- A freshly opened store on an empty directory. -/
def PersistentStore.new : PersistentStore := { db := [], entry_count := 0 }

/-- Model of `format!("entry:{}", id)`. -/
def entryKey (id : Nat) : String := "entry:" ++ toString id

/-- Model of `PersistentStore::store`: serialize (infallible for well-formed
entries), `put` (fault injected via `putOk`), then bump `entry_count`
unconditionally — also when the key already existed. -/
def PersistentStore.store (ps : PersistentStore) (id : Nat)
    (entry : EntryType) (putOk : Bool) : PersistentStore × Except String Unit :=
  if putOk then
    ({ db := dbPut (entryKey id) (.enc entry) ps.db,
       entry_count := ps.entry_count + 1 }, .ok ())
  else (ps, .error "Failed to store entry: put failed")

/-- Model of `PersistentStore::get`. -/
def PersistentStore.get (ps : PersistentStore) (id : Nat) :
    Except String (Option EntryType) :=
  match alookup ps.db (entryKey id) with
  | some data =>
      match decodeEntry data with
      | some entry => .ok (some entry)
      | none => .error "Failed to deserialize entry: decode failed"
  | none => .ok none

/-- Model of `PersistentStore::store_context`: a Context entry keyed by the session
id. -/
def PersistentStore.storeContext (ps : PersistentStore) (session_id : Nat)
    (ctx : List String) (now : Nat) (putOk : Bool) :
    PersistentStore × Except String Unit :=
  ps.store session_id (.context session_id ctx now) putOk

/-- Model of `PersistentStore::get_context`. -/
def PersistentStore.getContext (ps : PersistentStore) (session_id : Nat) :
    Except String (Option (List String)) :=
  match ps.get session_id with
  | .error e => .error e
  | .ok (some (.context _ ctx _)) => .ok (some ctx)
  | .ok _ => .ok none

/-- The iteration loop of `restore_to_ramlake`: keys without the `entry:`
prefix are skipped; an `entry:` key whose UUID part fails to parse aborts
with a parse error; a value that fails to decode aborts with a decode
error; otherwise the entry is collected and the optional limit checked. -/
def restoreLoop (limit : Option Nat) :
    List (String × RawValue) → List (Nat × EntryType) →
    Except String (List (Nat × EntryType))
  | [], acc => .ok acc
  | (key, value) :: rest, acc =>
      if strStartsWith key "entry:" then
        match strToNat (strDrop key 6) with
        | none => .error "Failed to parse UUID: invalid character"
        | some id =>
            match decodeEntry value with
            | none => .error "Failed to deserialize entry: decode failed"
            | some entry =>
                let acc' := acc ++ [(id, entry)]
                match limit with
                | some lim =>
                    if lim ≤ acc'.length then .ok acc'
                    else restoreLoop limit rest acc'
                | none => restoreLoop limit rest acc'
      else restoreLoop limit rest acc

/-- Model of `PersistentStore::restore_to_ramlake`. -/
def PersistentStore.restoreToRamlake (ps : PersistentStore)
    (limit : Option Nat) : Except String (List (Nat × EntryType)) :=
  restoreLoop limit ps.db []

/-! ## RAM-Lake coordinator (`ramlake.rs`)

The coordinator owns the budgeter and the four stores.  The source computes
each store's byte budget from `total_size` and the `f32` allocation shares;
the computed sizes are taken here as arguments of the constructor. -/

/-- Model of `RamLake`. -/
structure RamLake where
  memory_manager : MemoryManager
  vector_store : VectorStore
  code_store : CodeStore
  history_store : HistoryStore
  metadata_store : RelationGraph

/-- Model of `RamLake::new` over empty store directories. -/
def RamLake.new (total_size vector_size code_size history_size
    _metadata_size : Nat) : RamLake :=
  { memory_manager := MemoryManager.new total_size,
    vector_store := VectorStore.new vector_size,
    code_store := CodeStore.new code_size,
    history_store := HistoryStore.new history_size,
    metadata_store := RelationGraph.empty }

/-- Model of `RamLake::store_code`: a **fresh** `Uuid::new_v4()` (the `freshId`
argument) is always generated for the stored file; then the code store and
the budgeter are updated in that order — a budgeter failure still leaves
the code store mutated. -/
def RamLake.storeCode (rl : RamLake) (freshId : Nat)
    (path content language : String) (now : Nat) (digest : String → String) :
    RamLake × Except String Nat :=
  match rl.code_store.storeFile freshId path content language now digest with
  | (cs, .error e) => ({ rl with code_store := cs }, .error e)
  | (cs, .ok ()) =>
      match rl.memory_manager.allocateWithSource content.length
          ("code:" ++ path) now with
      | (mm, .error e) =>
          ({ rl with code_store := cs, memory_manager := mm },
           .error ("Failed to allocate memory: " ++ e.message))
      | (mm, .ok ()) =>
          ({ rl with code_store := cs, memory_manager := mm }, .ok freshId)

/-- Model of `RamLake::store_event`: fresh id, history store, then budgeter. -/
def RamLake.storeEvent (rl : RamLake) (freshId : Nat)
    (event_type content : String) (now : Nat) :
    RamLake × Except String Nat :=
  match rl.history_store.storeEvent freshId event_type content now with
  | (hs, .error e) => ({ rl with history_store := hs }, .error e)
  | (hs, .ok ()) =>
      match rl.memory_manager.allocateWithSource content.length
          ("event:" ++ event_type) now with
      | (mm, .error e) =>
          ({ rl with history_store := hs, memory_manager := mm },
           .error ("Failed to allocate memory: " ++ e.message))
      | (mm, .ok ()) =>
          ({ rl with history_store := hs, memory_manager := mm }, .ok freshId)

/-- Model of `RamLake::get_code`. -/
def RamLake.getCode (rl : RamLake) (id : Nat) :
    Except String (String × String × String) :=
  rl.code_store.getFile id

/-- Model of `RamLake::get_event`. -/
def RamLake.getEvent (rl : RamLake) (id : Nat) :
    Except String (String × String × Nat) :=
  rl.history_store.getEvent id

/-! ## Hybrid Memory (`hybrid_memory.rs`) -/

/-- Model of `HybridMetrics`; the cache-hit EMA is the exact rational counterpart of
the `f64` moving average. -/
structure HybridMetrics where
  total_entries : Nat
  ram_entries : Nat
  persistent_entries : Nat
  cache_hit_rate : ℚ
  last_sync : Option Nat
deriving Repr, DecidableEq

/-- The metrics as initialized by `HybridMemory::new`. -/
def HybridMetrics.init : HybridMetrics :=
  { total_entries := 0, ram_entries := 0, persistent_entries := 0,
    cache_hit_rate := 0, last_sync := none }

/-- Model of `HybridMemory`. -/
structure HybridMemory where
  ramlake : RamLake
  persistent : PersistentStore
  metrics : HybridMetrics

/-- Model of `HybridMemory::update_cache_hit`: EMA with smoothing factor 0.1. -/
def updateCacheHit (m : HybridMetrics) (hit : Bool) : HybridMetrics :=
  { m with cache_hit_rate :=
      (1 / 10 : ℚ) * (if hit then 1 else 0) +
        (1 - 1 / 10) * m.cache_hit_rate }

/-- Model of `HybridMemory::store_code`: RAM-Lake first, Persistent Store second;
a PS failure propagates while the RL write stays in place. -/
def HybridMemory.storeCode (hm : HybridMemory) (freshId : Nat)
    (path content language : String) (now : Nat) (digest : String → String)
    (psPutOk : Bool) : HybridMemory × Except String Nat :=
  match hm.ramlake.storeCode freshId path content language now digest with
  | (rl, .error e) => ({ hm with ramlake := rl }, .error e)
  | (rl, .ok id) =>
      match hm.persistent.store id (.code path content language now) psPutOk with
      | (ps, .error e) => ({ hm with ramlake := rl, persistent := ps }, .error e)
      | (ps, .ok ()) => ({ hm with ramlake := rl, persistent := ps }, .ok id)

/-- Model of `HybridMemory::store_event`: RAM-Lake first, Persistent Store second. -/
def HybridMemory.storeEvent (hm : HybridMemory) (freshId : Nat)
    (event_type content : String) (now : Nat) (psPutOk : Bool) :
    HybridMemory × Except String Nat :=
  match hm.ramlake.storeEvent freshId event_type content now with
  | (rl, .error e) => ({ hm with ramlake := rl }, .error e)
  | (rl, .ok id) =>
      match hm.persistent.store id (.event event_type content now) psPutOk with
      | (ps, .error e) => ({ hm with ramlake := rl, persistent := ps }, .error e)
      | (ps, .ok ()) => ({ hm with ramlake := rl, persistent := ps }, .ok id)

/-- Model of `HybridMemory::get_code`: try RL (bumping the EMA as a hit); on a miss
bump the EMA as a miss and fall back to PS; on a PS hit, promote by calling
`RamLake::store_code` — which files the content under a **fresh** id —
ignoring its result. -/
def HybridMemory.getCode (hm : HybridMemory) (id : Nat) (freshId now : Nat)
    (digest : String → String) :
    HybridMemory × Except String (Option (String × String × String)) :=
  match hm.ramlake.getCode id with
  | .ok result =>
      ({ hm with metrics := updateCacheHit hm.metrics true }, .ok (some result))
  | .error _ =>
      let hm1 := { hm with metrics := updateCacheHit hm.metrics false }
      match hm1.persistent.get id with
      | .error e => (hm1, .error e)
      | .ok (some (.code path content language _)) =>
          ({ hm1 with ramlake :=
              (hm1.ramlake.storeCode freshId path content language now digest).1 },
           .ok (some (path, content, language)))
      | .ok _ => (hm1, .ok none)

/-- A small fresh hybrid system used by the concrete-input theorems. -/
def freshHybrid : HybridMemory :=
  { ramlake := RamLake.new 100 25 25 25 25,
    persistent := PersistentStore.new,
    metrics := HybridMetrics.init }

/-- A hybrid system whose Persistent Store holds one Code entry under id 1
while the RAM Lake is cold (empty), as after a restart without
`restore_hot_data`. -/
def coldHybrid : HybridMemory :=
  { ramlake := RamLake.new 100 25 25 25 25,
    persistent := { db := [("entry:1", .enc (.code "a.rs" "x" "rust" 0))],
                    entry_count := 1 },
    metrics := HybridMetrics.init }

/-- A store whose engine contains an `entry:`-prefixed key whose UUID part
does not parse. -/
def badUuidStore : PersistentStore :=
  { db := [("entry:zzz", .enc (.event "t" "x" 0))], entry_count := 1 }

/-! ## Theorems -/

theorem MBOp.apply_invariant (mm : MemoryManager) (op : MBOp)
    (h : mm.current_size ≤ mm.max_size) :
    (op.apply mm).current_size ≤ (op.apply mm).max_size := by
  cases op with
  | allocate size now =>
      simp only [apply, MemoryManager.allocate]
      split
      · exact h
      · split
        · exact h
        · simp only [not_lt] at *; omega
  | allocateWithSource size source now =>
      simp only [apply, MemoryManager.allocateWithSource]
      split
      · exact h
      · split
        · exact h
        · simp only [not_lt] at *; omega
  | free size now =>
      simp only [apply, MemoryManager.free]
      split
      · exact h
      · split
        · exact h
        · simp only []; omega
  | reset =>
      simp only [apply, MemoryManager.reset]; omega
  | increaseMaxSize d =>
      simp only [apply, MemoryManager.increaseMaxSize]; omega
  | decreaseMaxSize d =>
      simp only [apply, MemoryManager.decreaseMaxSize]
      by_cases hd : mm.max_size < d
      · simp only [if_pos hd]
        split
        · exact h
        · next hc => simp only [not_lt] at hc; simpa using hc
      · simp only [if_neg hd]
        split
        · exact h
        · next hc => simp only [not_lt] at hc; simpa using hc

theorem runMBOps_invariant (mm : MemoryManager) (ops : List MBOp)
    (h : mm.current_size ≤ mm.max_size) :
    (runMBOps mm ops).current_size ≤ (runMBOps mm ops).max_size := by
  induction ops generalizing mm with
  | nil => exact h
  | cons op rest ih =>
      exact ih (op.apply mm) (MBOp.apply_invariant mm op h)

/-- C8: starting from a fresh manager, after every sequence of allocate,
allocate_with_source, free, reset, increase_max_size and decrease_max_size
operations, `current_size ≤ max_size` holds; and an allocation with
`current_size + size > max_size` is refused with the out-of-memory error and
leaves the manager unchanged. -/
theorem memory_budgeter_invariant (ops : List MBOp) (max0 : Nat) :
    (runMBOps (MemoryManager.new max0) ops).current_size ≤
      (runMBOps (MemoryManager.new max0) ops).max_size ∧
    (∀ (mm : MemoryManager) (size now : Nat), 0 < size →
      mm.max_size < mm.current_size + size →
      mm.allocate size now = (mm, .error .outOfMemory)) ∧
    (∀ (mm : MemoryManager) (size : Nat) (source : String) (now : Nat),
      0 < size → mm.max_size < mm.current_size + size →
      mm.allocateWithSource size source now = (mm, .error .outOfMemory)) := by
  refine ⟨runMBOps_invariant _ _ (by simp [MemoryManager.new]), ?_, ?_⟩
  · intro mm size now hpos hover
    simp [MemoryManager.allocate, Nat.pos_iff_ne_zero.mp hpos, hover]
  · intro mm size source now hpos hover
    simp [MemoryManager.allocateWithSource, Nat.pos_iff_ne_zero.mp hpos, hover]

/-- Witness for C8 at concrete inputs: a short run keeps the invariant and a
21-byte allocation against a budget of 20 with 10 bytes used is refused. -/
theorem memory_budgeter_invariant_witness :
    (runMBOps (MemoryManager.new 20) [MBOp.allocate 10 0, MBOp.free 4 1,
        MBOp.decreaseMaxSize 5]).current_size ≤
      (runMBOps (MemoryManager.new 20) [MBOp.allocate 10 0, MBOp.free 4 1,
        MBOp.decreaseMaxSize 5]).max_size ∧
    (runMBOps (MemoryManager.new 20) [MBOp.allocate 10 0]).allocate 11 2 =
      (runMBOps (MemoryManager.new 20) [MBOp.allocate 10 0],
       .error .outOfMemory) :=
  ⟨(memory_budgeter_invariant [MBOp.allocate 10 0, MBOp.free 4 1,
      MBOp.decreaseMaxSize 5] 20).1,
   (memory_budgeter_invariant [] 20).2.1
     (runMBOps (MemoryManager.new 20) [MBOp.allocate 10 0]) 11 2
     (by decide) (by decide)⟩

theorem alookup_ainsert {α β : Type} [DecidableEq α] (l : List (α × β))
    (k : α) (v : β) :
    alookup (ainsert k v l) k = some v := by
  induction l with
  | nil => simp [ainsert, alookup]
  | cons hd tl ih =>
      by_cases h : hd.1 = k
      · simp [ainsert, h, alookup]
      · simp only [ainsert]
        rw [show (hd.1, hd.2) = hd from rfl]
        simp [h, alookup, ih]

theorem mem_sinsert_self (x : Nat) (s : List Nat) : x ∈ sinsert x s := by
  by_cases h : x ∈ s <;> simp [sinsert, h]

theorem tripleExists_addToRelationIndex (idx : List (Nat × List (String × List Nat)))
    (k : Nat) (relation : String) (v : Nat) :
    (alookup (addToRelationIndex idx k relation v) k).bind
      (fun r => alookup r relation) = some (sinsert v ((alookup ((alookup idx k).getD []) relation).getD [])) := by
  simp [addToRelationIndex, alookup_ainsert]

theorem storeRelation_of_tripleExists (g : RelationGraph) (s : Nat)
    (r : String) (t : Nat) (h : g.tripleExists s r t = true) :
    g.storeRelation s r t = (g, .ok ()) := by
  simp [RelationGraph.storeRelation, h]

theorem tripleExists_after_storeRelation (g : RelationGraph) (s : Nat)
    (r : String) (t : Nat) :
    ((g.storeRelation s r t).1).tripleExists s r t = true := by
  by_cases h : g.tripleExists s r t
  · rw [storeRelation_of_tripleExists g s r t h]
    exact h
  · simp only [RelationGraph.storeRelation, h, Bool.false_eq_true, ite_false]
    simp [RelationGraph.tripleExists, tripleExists_addToRelationIndex,
      mem_sinsert_self]

/-- C7: inserting a triple that is already present is a no-op — the graph
(count, version, forward and backward indices, all-relations list) is
returned unchanged with success — and hence inserting the same triple twice
leaves the graph, in particular `count`, at the value after the first
insert. -/
theorem metadata_insert_idempotent (g : RelationGraph) (s : Nat) (r : String)
    (t : Nat) :
    (g.tripleExists s r t = true → g.storeRelation s r t = (g, .ok ())) ∧
    (((g.storeRelation s r t).1).storeRelation s r t =
      ((g.storeRelation s r t).1, .ok ())) := by
  constructor
  · intro h
    exact storeRelation_of_tripleExists g s r t h
  · exact storeRelation_of_tripleExists _ s r t
      (tripleExists_after_storeRelation g s r t)

/-- Witness for C7 at a concrete graph: inserting (1, "calls", 2) twice from
the empty graph; the second insert returns the state of the first unchanged. -/
theorem metadata_insert_idempotent_witness :
    ((RelationGraph.empty.storeRelation 1 "calls" 2).1).storeRelation 1 "calls" 2 =
      ((RelationGraph.empty.storeRelation 1 "calls" 2).1, .ok ()) ∧
    ((RelationGraph.empty.storeRelation 1 "calls" 2).1).count = 1 :=
  ⟨(metadata_insert_idempotent (RelationGraph.empty.storeRelation 1 "calls" 2).1
      1 "calls" 2).1 (by decide),
   by decide⟩

/-- C2 counterexample: on a fresh empty store (recorded dimension 0) the
query `[1]` of length 1 is rejected with a dimension-mismatch error — it
does not return the empty result list as the claim states for every query. -/
theorem vector_search_empty_store_counterexample :
    VectorStore.searchSimilar (fun _ _ => 0) (VectorStore.new 1000) [(1 : ℚ)] 5 =
      .error "Embedding dimension mismatch. Expected 0, got 1" ∧
    VectorStore.searchSimilar (fun _ _ => 0) (VectorStore.new 1000) [(1 : ℚ)] 5 ≠
      .ok [] := by
  constructor
  · rfl
  · intro h
    simp [VectorStore.searchSimilar, VectorStore.new] at h

/-- C2 (amended): on a store with no embeddings, `search_similar` returns the
empty list provided the query length equals the store's recorded dimension
(0 on a fresh store); any other query length is rejected with
DimensionMismatch before the empty-store check; and whenever search
succeeds, at most `k` results are returned (`k` truncates). -/
theorem vector_search_empty_and_truncating (cosSim : List ℚ → List ℚ → ℚ)
    (st : VectorStore) (q : List ℚ) (k : Nat) :
    (st.index.count = 0 → st.index.dimension = q.length →
      st.searchSimilar cosSim q k = .ok []) ∧
    (∀ rs, st.searchSimilar cosSim q k = .ok rs → rs.length ≤ k) := by
  constructor
  · intro hcount hdim
    simp [VectorStore.searchSimilar, hdim, hcount]
  · intro rs h
    simp only [VectorStore.searchSimilar] at h
    split at h
    · exact absurd h (by simp)
    · split at h
      · simp only [Except.ok.injEq] at h
        simp [← h]
      · simp only [VectorStore.bruteForceSearch, bind, Except.bind] at h
        split at h
        · exact absurd h (by simp)
        · simp only [Except.ok.injEq] at h
          rw [← h]
          simp [List.length_take]

/-- Witness for C2 (amended): a fresh store with dimension 0, the empty
query and k = 3 returns the empty list, and that result has length ≤ 3. -/
theorem vector_search_empty_and_truncating_witness :
    VectorStore.searchSimilar (fun _ _ => 0) (VectorStore.new 1000) [] 3 = .ok [] ∧
    ([] : List (Nat × ℚ)).length ≤ 3 :=
  ⟨(vector_search_empty_and_truncating (fun _ _ => 0) (VectorStore.new 1000) [] 3).1
      rfl rfl,
   (vector_search_empty_and_truncating (fun _ _ => 0) (VectorStore.new 1000) [] 3).2
      []
      ((vector_search_empty_and_truncating (fun _ _ => 0) (VectorStore.new 1000) [] 3).1
        rfl rfl)⟩

/-- C9: once the store is empty again (count 0), `store_embedding` accepts a
fresh id with a vector of any length — also one different from the
previously fixed dimension — and resets the store's dimension to that new
length. -/
theorem vector_dimension_reset (st : VectorStore) (id : Nat) (v : List ℚ)
    (now : Nat)
    (hcount : st.index.count = 0)
    (hid : alookup st.metadata id = none)
    (hspace : st.current_size + v.length * 4 ≤ st.max_size) :
    ∃ st', st.storeEmbedding id v now = (st', .ok ()) ∧
      st'.index.dimension = v.length ∧ st'.index.count = 1 := by
  have hdup : (alookup st.metadata id).isSome = false := by simp [hid]
  simp only [VectorStore.storeEmbedding, hdup, Bool.false_eq_true, ite_false,
    Nat.not_lt.mpr hspace, hcount, if_true]
  exact ⟨_, rfl, rfl, rfl⟩

/-- Witness for C9: store `[1, 2, 3]` (dimension becomes 3), delete it, then
store `[5, 6]` under a fresh id — it succeeds and the dimension becomes 2. -/
theorem vector_dimension_reset_witness :
    ∃ st', (((VectorStore.new 100).storeEmbedding 1 [1, 2, 3] 0).1.deleteEmbedding 1).1.storeEmbedding 2 [5, 6] 3 =
        (st', .ok ()) ∧ st'.index.dimension = 2 ∧ st'.index.count = 1 :=
  vector_dimension_reset
    (((VectorStore.new 100).storeEmbedding 1 [1, 2, 3] 0).1.deleteEmbedding 1).1
    2 [5, 6] 3 (by decide) (by decide) (by decide)

/-- C4: `store_code(p, c1)` then `store_code(p, c2)` on a fresh store, with
both contents within budget: the second call succeeds, exactly the one id
`id2` is mapped to `p`, the old id's metadata, index entry and file are
removed, the stored content for `id2` is `c2`, and `current_size` equals
`len(c2)`. -/
theorem code_store_path_replace (M : Nat) (p c1 c2 l1 l2 : String)
    (id1 id2 t1 t2 : Nat) (digest : String → String)
    (hne : id1 ≠ id2) (h2 : c1.length + c2.length ≤ M) :
    (let r1 := (CodeStore.new M).storeFile id1 p c1 l1 t1 digest
     let r2 := r1.1.storeFile id2 p c2 l2 t2 digest
     r1.2 = .ok () ∧ r2.2 = .ok () ∧
     r2.1.index.path_map = [(p, id2)] ∧
     alookup r2.1.metadata id1 = none ∧
     r2.1.index.ids = [id2] ∧
     r2.1.files = [(codeFileName id2, c2)] ∧
     r2.1.getFile id2 = .ok (p, c2, l2) ∧
     r2.1.current_size = c2.length) := by
  intro r1 r2
  have hb1 : ¬ (M < c1.length) := by omega
  have hb2 : ¬ (M < c1.length + c2.length) := by omega
  simp only [r1, r2, CodeStore.storeFile, CodeStore.new,
    CodeStore.storeFileUnchecked, CodeStore.deleteFile, CodeStore.getFile,
    alookup, ainsert, aerase, List.filter, Nat.zero_add, hb1, hb2,
    Nat.add_zero, if_false, ite_false, if_true, ite_true]
  simp [hne, Ne.symm hne, hb1, hb2]

/-- Witness for C4: replacing `"a" -> "old"` with `"a" -> "new"` in a store
with a 100-byte budget. -/
theorem code_store_path_replace_witness :
    let r1 := (CodeStore.new 100).storeFile 1 "a" "old" "rust" 0 (fun s => s)
    let r2 := r1.1.storeFile 2 "a" "new" "rust" 1 (fun s => s)
    r1.2 = .ok () ∧ r2.2 = .ok () ∧
    r2.1.index.path_map = [("a", 2)] ∧
    alookup r2.1.metadata 1 = none ∧
    r2.1.index.ids = [2] ∧
    r2.1.files = [(codeFileName 2, "new")] ∧
    r2.1.getFile 2 = .ok ("a", "new", "rust") ∧
    r2.1.current_size = "new".length :=
  code_store_path_replace 100 "a" "old" "new" "rust" "rust" 1 2 0 1
    (fun s => s) (by decide) (by decide)

theorem deleteEvent_error_shape (st : HistoryStore) (id : Nat)
    (st' : HistoryStore) (e : String)
    (h : st.deleteEvent id = (st', .error e)) :
    e = "Event with ID " ++ toString id ++ " not found" := by
  unfold HistoryStore.deleteEvent at h
  split at h
  · simp only [Prod.mk.injEq, Except.error.injEq] at h
    exact h.2.symm
  · simp only [Prod.mk.injEq] at h
    exact absurd h.2 (by simp)

theorem removeOldestLoop_error_shape (required : Nat)
    (l : List (Nat × Nat × Nat)) :
    ∀ (st : HistoryStore) (freed : Nat) (st' : HistoryStore) (e : String),
      removeOldestLoop required st freed l = (st', .error e) →
      ∃ i : Nat, e = "Event with ID " ++ toString i ++ " not found" := by
  induction l with
  | nil =>
      intro st freed st' e h
      simp only [removeOldestLoop, Prod.mk.injEq] at h
      exact absurd h.2 (by simp)
  | cons hd tl ih =>
      intro st freed st' e h
      obtain ⟨id, ts, size⟩ := hd
      simp only [removeOldestLoop] at h
      split at h
      · simp only [Prod.mk.injEq] at h
        exact absurd h.2 (by simp)
      · split at h
        · next st1 e1 heq =>
            simp only [Prod.mk.injEq, Except.error.injEq] at h
            refine ⟨id, ?_⟩
            rw [← h.2]
            exact deleteEvent_error_shape st id st1 e1 heq
        · exact ih _ _ _ _ h

theorem event_not_found_ne_overbudget (s : String) :
    ("Event with ID " ++ s ++ " not found") ≠ "Not enough space in history store" := by
  intro h
  have h2 := congrArg String.data h
  simp [String.data_append] at h2

/-- C5: with a budget of 30 bytes and three 10-byte events at timestamps
1 < 2 < 3, storing a fourth 10-byte event at timestamp 4 succeeds, the
oldest event (timestamp 1) is evicted, and `recent(3)` returns the events at
timestamps 4, 3, 2 — newest first; in general, a store fails with the
over-budget error only when, after the eviction pass, space is still
insufficient. -/
theorem history_store_eviction :
    (∀ (st : HistoryStore) (id : Nat) (ty c : String) (now : Nat)
        (st' : HistoryStore),
      st.storeEvent id ty c now = (st', .error "Not enough space in history store") →
      st'.max_size < st'.current_size + c.length) ∧
    (let s1 := ((HistoryStore.new 30).storeEvent 1 "t" "aaaaaaaaaa" 1).1
     let s2 := (s1.storeEvent 2 "t" "bbbbbbbbbb" 2).1
     let s3 := (s2.storeEvent 3 "t" "cccccccccc" 3).1
     let r4 := s3.storeEvent 4 "t" "dddddddddd" 4
     r4.2 = .ok () ∧
     alookup r4.1.metadata 1 = none ∧
     (r4.1.getRecentEvents 3).map (fun x => x.1) = [4, 3, 2] ∧
     (r4.1.getRecentEvents 3).map (fun x => x.2.timestamp) = [4, 3, 2] ∧
     r4.1.current_size = 30) := by
  constructor
  · intro st id ty c now st' h
    unfold HistoryStore.storeEvent at h
    split at h
    · split at h
      · next st1 e1 heq =>
          simp only [HistoryStore.removeOldestEvents] at heq
          simp only [Prod.mk.injEq, Except.error.injEq] at h
          obtain ⟨i, hi⟩ := removeOldestLoop_error_shape c.length _ st 0 st1 e1 heq
          exact absurd (hi ▸ h.2) (event_not_found_ne_overbudget (toString i))
      · split at h
        · next hlt2 =>
            simp only [Prod.mk.injEq] at h
            exact h.1 ▸ hlt2
        · simp only [Prod.mk.injEq] at h
          exact absurd h.2 (by simp)
    · simp only [Prod.mk.injEq] at h
      exact absurd h.2 (by simp)
  · refine ⟨?_, ?_, ?_, ?_, ?_⟩ <;> rfl

/-- Witness for C5's general conjunct: a 10-byte event against a 5-byte
budget on an empty store fails with the over-budget error, and the
post-eviction state indeed lacks the space. -/
theorem history_store_eviction_witness :
    ((HistoryStore.new 5).storeEvent 1 "t" "aaaaaaaaaa" 1).1.max_size <
      ((HistoryStore.new 5).storeEvent 1 "t" "aaaaaaaaaa" 1).1.current_size +
        "aaaaaaaaaa".length :=
  history_store_eviction.1 (HistoryStore.new 5) 1 "t" "aaaaaaaaaa" 1
    ((HistoryStore.new 5).storeEvent 1 "t" "aaaaaaaaaa" 1).1 rfl

theorem getFile_storeFileUnchecked (st : CodeStore) (id : Nat)
    (p c l : String) (now : Nat) (digest : String → String) :
    (st.storeFileUnchecked id p c l now digest).getFile id = .ok (p, c, l) := by
  simp [CodeStore.getFile, CodeStore.storeFileUnchecked, alookup_ainsert]

theorem getFile_after_storeFile (st : CodeStore) (id : Nat)
    (p c l : String) (now : Nat) (digest : String → String) (cs : CodeStore)
    (h : st.storeFile id p c l now digest = (cs, .ok ())) :
    cs.getFile id = .ok (p, c, l) := by
  unfold CodeStore.storeFile at h
  split at h
  · simp only [Prod.mk.injEq] at h
    exact absurd h.2 (by simp)
  · split at h
    · split at h
      · simp only [Prod.mk.injEq] at h
        exact absurd h.2 (by simp)
      · simp only [Prod.mk.injEq] at h
        exact h.1 ▸ getFile_storeFileUnchecked _ id p c l now digest
    · simp only [Prod.mk.injEq] at h
      exact h.1 ▸ getFile_storeFileUnchecked _ id p c l now digest

theorem getCode_after_ramlake_storeCode (rl : RamLake) (freshId : Nat)
    (p c l : String) (now : Nat) (digest : String → String) (rl' : RamLake)
    (id : Nat) (h : rl.storeCode freshId p c l now digest = (rl', .ok id)) :
    rl'.getCode id = .ok (p, c, l) := by
  unfold RamLake.storeCode at h
  split at h
  · simp only [Prod.mk.injEq] at h
    exact absurd h.2 (by simp)
  · next cs heq =>
      split at h
      · simp only [Prod.mk.injEq] at h
        exact absurd h.2 (by simp)
      · simp only [Prod.mk.injEq, Except.ok.injEq] at h
        rw [← h.1, ← h.2]
        exact getFile_after_storeFile _ freshId p c l now digest cs heq

theorem getEvent_storeEventUnchecked (st : HistoryStore) (id : Nat)
    (ty c : String) (now : Nat) :
    (st.storeEventUnchecked id ty c now).getEvent id = .ok (ty, c, now) := by
  simp [HistoryStore.getEvent, HistoryStore.storeEventUnchecked, alookup_ainsert]

theorem getEvent_after_storeEvent (st : HistoryStore) (id : Nat)
    (ty c : String) (now : Nat) (hs : HistoryStore)
    (h : st.storeEvent id ty c now = (hs, .ok ())) :
    hs.getEvent id = .ok (ty, c, now) := by
  unfold HistoryStore.storeEvent at h
  split at h
  · split at h
    · simp only [Prod.mk.injEq] at h
      exact absurd h.2 (by simp)
    · split at h
      · simp only [Prod.mk.injEq] at h
        exact absurd h.2 (by simp)
      · simp only [Prod.mk.injEq] at h
        exact h.1 ▸ getEvent_storeEventUnchecked _ id ty c now
  · simp only [Prod.mk.injEq] at h
    exact h.1 ▸ getEvent_storeEventUnchecked _ id ty c now

theorem getEvent_after_ramlake_storeEvent (rl : RamLake) (freshId : Nat)
    (ty c : String) (now : Nat) (rl' : RamLake) (id : Nat)
    (h : rl.storeEvent freshId ty c now = (rl', .ok id)) :
    rl'.getEvent id = .ok (ty, c, now) := by
  unfold RamLake.storeEvent at h
  split at h
  · simp only [Prod.mk.injEq] at h
    exact absurd h.2 (by simp)
  · next hs heq =>
      split at h
      · simp only [Prod.mk.injEq] at h
        exact absurd h.2 (by simp)
      · simp only [Prod.mk.injEq, Except.ok.injEq] at h
        rw [← h.1, ← h.2]
        exact getEvent_after_storeEvent _ freshId ty c now hs heq

/-- C6: if the RAM-Lake half of a write-through (`store_code` or
`store_event`) succeeds and the Persistent Store `put` then fails, the
operation returns the PS error and the entry written to the RAM Lake
remains present (readable back); the PS state is untouched. -/
theorem hybrid_write_error_atomicity :
    (∀ (hm : HybridMemory) (freshId : Nat) (p c l : String) (now : Nat)
        (digest : String → String) (rl : RamLake) (id : Nat),
      hm.ramlake.storeCode freshId p c l now digest = (rl, .ok id) →
      hm.storeCode freshId p c l now digest false =
        ({ hm with ramlake := rl }, .error "Failed to store entry: put failed") ∧
      rl.getCode id = .ok (p, c, l)) ∧
    (∀ (hm : HybridMemory) (freshId : Nat) (ty c : String) (now : Nat)
        (rl : RamLake) (id : Nat),
      hm.ramlake.storeEvent freshId ty c now = (rl, .ok id) →
      hm.storeEvent freshId ty c now false =
        ({ hm with ramlake := rl }, .error "Failed to store entry: put failed") ∧
      rl.getEvent id = .ok (ty, c, now)) := by
  constructor
  · intro hm freshId p c l now digest rl id h
    refine ⟨?_, getCode_after_ramlake_storeCode hm.ramlake freshId p c l now
      digest rl id h⟩
    unfold HybridMemory.storeCode
    rw [h]
    rfl
  · intro hm freshId ty c now rl id h
    refine ⟨?_, getEvent_after_ramlake_storeEvent hm.ramlake freshId ty c now
      rl id h⟩
    unfold HybridMemory.storeEvent
    rw [h]
    rfl

/-- Witness for C6: a concrete hybrid system on which the RL write of
`("a.rs", "x", "rust")` succeeds; with the PS put failing, the operation
reports the PS error and the code is still readable from the RAM Lake. -/
theorem hybrid_write_error_atomicity_witness :
    freshHybrid.storeCode 1 "a.rs" "x" "rust" 0 (fun s => s) false =
      ({ freshHybrid with
          ramlake := (freshHybrid.ramlake.storeCode 1 "a.rs" "x" "rust" 0
            (fun s => s)).1 },
       .error "Failed to store entry: put failed") ∧
    ((freshHybrid.ramlake.storeCode 1 "a.rs" "x" "rust" 0 (fun s => s)).1).getCode 1 =
      .ok ("a.rs", "x", "rust") :=
  hybrid_write_error_atomicity.1 freshHybrid 1 "a.rs" "x" "rust" 0
    (fun s => s) _ 1 rfl

/-- C1 (evidence of the code bug): on `coldHybrid`, the first `get_code(1)`
misses RL and hits PS, but the promotion files the entry under the fresh id
2 — so RL still has nothing under id 1, and the immediately-following
`get_code(1)` misses RL again: it is answered from PS and the cache-hit EMA
stays at 0 (bumped as a miss), whereas a RL hit would have raised it to
1/10.  The claim says the second get hits RL. -/
theorem hybrid_promotion_misses_original_id :
    (let g1 := coldHybrid.getCode 1 2 5 (fun s => s)
     let g2 := g1.1.getCode 1 3 6 (fun s => s)
     g1.2 = .ok (some ("a.rs", "x", "rust")) ∧
     alookup g1.1.ramlake.code_store.metadata 1 = none ∧
     g1.1.ramlake.getCode 1 = .error "Code file with ID 1 not found" ∧
     g2.2 = .ok (some ("a.rs", "x", "rust")) ∧
     g1.1.metrics = updateCacheHit HybridMetrics.init false ∧
     g2.1.metrics = updateCacheHit (updateCacheHit HybridMetrics.init false) false ∧
     (updateCacheHit (updateCacheHit HybridMetrics.init false) false).cache_hit_rate = 0 ∧
     (updateCacheHit (updateCacheHit HybridMetrics.init false) true).cache_hit_rate = 1 / 10) := by
  refine ⟨rfl, rfl, rfl, rfl, rfl, rfl, ?_, ?_⟩ <;>
    norm_num [updateCacheHit, HybridMetrics.init]

/-- C3 counterexample: iterating a store holding the single key
`entry:zzz` aborts with the UUID parse error instead of skipping the key
silently and returning the remaining (empty) entry list. -/
theorem persistent_iteration_bad_uuid_counterexample :
    badUuidStore.restoreToRamlake none =
      .error "Failed to parse UUID: invalid character" ∧
    badUuidStore.restoreToRamlake none ≠ .ok [] := by
  refine ⟨rfl, ?_⟩
  intro h
  have e : badUuidStore.restoreToRamlake none =
      .error "Failed to parse UUID: invalid character" := rfl
  rw [e] at h
  exact Except.noConfusion h

/-- C3 (amended): the `entry:` iteration skips keys that lack the `entry:`
prefix (wherever they occur); an `entry:` key whose UUID part fails to
parse aborts the iteration with a parse error; an entry value that fails to
decode aborts with a decode error. -/
theorem persistent_iteration_amended (limit : Option Nat)
    (rest : List (String × RawValue)) (k : String) (v : RawValue) :
    (strStartsWith k "entry:" = false →
      ∀ (pre : List (String × RawValue)) (acc : List (Nat × EntryType)),
        restoreLoop limit (pre ++ (k, v) :: rest) acc =
          restoreLoop limit (pre ++ rest) acc) ∧
    (strStartsWith k "entry:" = true → strToNat (strDrop k 6) = none →
      ∀ acc, restoreLoop limit ((k, v) :: rest) acc =
        .error "Failed to parse UUID: invalid character") ∧
    (∀ id : Nat, strStartsWith k "entry:" = true →
      strToNat (strDrop k 6) = some id → decodeEntry v = none →
      ∀ acc, restoreLoop limit ((k, v) :: rest) acc =
        .error "Failed to deserialize entry: decode failed") := by
  refine ⟨?_, ?_, ?_⟩
  · intro hk pre acc
    induction pre generalizing acc with
    | nil => simp [restoreLoop, hk]
    | cons hd tl ih =>
        obtain ⟨k', v'⟩ := hd
        simp only [List.cons_append, restoreLoop]
        by_cases hs : strStartsWith k' "entry:"
        · cases hn : strToNat (strDrop k' 6) with
          | none => simp [hs, hn]
          | some id =>
              cases hv : decodeEntry v' with
              | none => simp [hs, hn, hv]
              | some entry =>
                  cases limit with
                  | none => simp only [hs, hn, hv, if_true, ite_true]; exact ih _
                  | some lim =>
                      simp only [hs, hn, hv, if_true, ite_true,
                        List.length_append, List.length_cons, List.length_nil,
                        Nat.zero_add, Nat.add_zero]
                      by_cases hl : lim ≤ acc.length + 1
                      · simp [hl]
                      · simp only [hl, if_false, ite_false]
                        exact ih _
        · simp only [hs, Bool.false_eq_true, if_false, ite_false]
          exact ih _
  · intro hk hn acc
    simp [restoreLoop, hk, hn]
  · intro id hk hn hv acc
    simp [restoreLoop, hk, hn, hv]

/-- Witness for C3 (amended) at concrete keys: `meta:1` is skipped,
`entry:zzz` aborts with the parse error, and `entry:7` with corrupt bytes
aborts with the decode error. -/
theorem persistent_iteration_amended_witness :
    restoreLoop none ([("meta:1", .enc (.event "t" "x" 0))] :
        List (String × RawValue)) [] = restoreLoop none [] [] ∧
    restoreLoop none ([("entry:zzz", .enc (.event "t" "x" 0))] :
        List (String × RawValue)) [] =
      .error "Failed to parse UUID: invalid character" ∧
    restoreLoop none ([("entry:7", .corrupt 0)] :
        List (String × RawValue)) [] =
      .error "Failed to deserialize entry: decode failed" :=
  ⟨(persistent_iteration_amended none [] "meta:1"
      (.enc (.event "t" "x" 0))).1 (by decide) [] [],
   (persistent_iteration_amended none [] "entry:zzz"
      (.enc (.event "t" "x" 0))).2.1 (by decide) (by decide) [],
   (persistent_iteration_amended none [] "entry:7" (.corrupt 0)).2.2 7
      (by decide) (by decide) rfl []⟩

theorem dbPut_same_key_length (k : String) (v1 v2 : RawValue)
    (l : List (String × RawValue)) :
    (dbPut k v2 (dbPut k v1 l)).length = (dbPut k v1 l).length := by
  induction l with
  | nil => simp [dbPut]
  | cons hd tl ih =>
      obtain ⟨k', v'⟩ := hd
      by_cases he : k = k'
      · simp [dbPut, he]
      · by_cases hlt : k < k'
        · simp [dbPut, he, hlt]
        · simp [dbPut, he, hlt, ih]

/-- C10: every `store` bumps `entry_count` by one even when the put
overwrites an existing key; two `store_context` calls with the same session
id leave the database with as many entries as after the first call (one
entry when starting from an empty store) while raising `entry_count` by
two. -/
theorem persistent_entry_count_overcount (ps : PersistentStore)
    (id sid : Nat) (e : EntryType) (ctx1 ctx2 : List String) (t1 t2 : Nat) :
    ((ps.store id e true).1.entry_count = ps.entry_count + 1) ∧
    (let p1 := (ps.storeContext sid ctx1 t1 true).1
     let p2 := (p1.storeContext sid ctx2 t2 true).1
     p2.entry_count = ps.entry_count + 2 ∧ p2.db.length = p1.db.length) ∧
    ((PersistentStore.new.storeContext sid ctx1 t1 true).1.storeContext sid
        ctx2 t2 true).1.db.length = 1 := by
  refine ⟨rfl, ⟨rfl, ?_⟩, ?_⟩
  · exact dbPut_same_key_length (entryKey sid) _ _ ps.db
  · exact (dbPut_same_key_length (entryKey sid) _ _ []).trans rfl

/-- Witness for C10 at concrete inputs: two context writes for session 7 on
the empty store leave one database entry and `entry_count = 2`. -/
theorem persistent_entry_count_overcount_witness :
    ((PersistentStore.new.storeContext 7 ["a"] 1 true).1.storeContext 7 ["b"]
        2 true).1.db.length = 1 ∧
    ((PersistentStore.new.storeContext 7 ["a"] 1 true).1.storeContext 7 ["b"]
        2 true).1.entry_count = 0 + 2 :=
  ⟨(persistent_entry_count_overcount PersistentStore.new 0 7
      (.event "t" "x" 0) ["a"] ["b"] 1 2).2.2,
   (persistent_entry_count_overcount PersistentStore.new 0 7
      (.event "t" "x" 0) ["a"] ["b"] 1 2).2.1.1⟩

end PostDevAi
